import Mathlib

/-!
Verification of the smartapigo smartstream client against its specification.

The Go sources are shallowly embedded:
* byte buffers are `List Nat` (each element a byte value);
* Go slice expressions `msg[a:b]` and index expressions `msg[i]`, which
  panic when out of bounds, are modelled in the `Option` monad
  (`none` = fatal out-of-bounds fault);
* `uint64`/`uint16` values read by `binary.LittleEndian` are `Nat`
  (byte inputs keep them below `2^64`/`2^16`);
* the two `float64` fields (`TotalBuyQty`, `TotalSellQty`) are stored as
  their raw `uint64` bit patterns, since the code only moves the bits
  (`math.Float64frombits` of the little-endian word);
* Go `time.Duration` (an `int64` count of nanoseconds) is `Int`;
* Go strings are byte lists.
-/

set_option maxRecDepth 100000

namespace SmartApi

/-- Little-endian value of a byte list: the head is the least significant
byte, as read by `binary.LittleEndian.Uint64`/`Uint16`. -/
def leUint (bs : List Nat) : Nat :=
  bs.foldr (fun b acc => b + 256 * acc) 0

/-- Go slice expression `msg[a:b]`: `none` models the runtime panic when
`a > b` or `b > len(msg)`. -/
def slice? (msg : List Nat) (a b : Nat) : Option (List Nat) :=
  if a ≤ b ∧ b ≤ msg.length then some ((msg.drop a).take (b - a)) else none

/-- Embeds `binary.LittleEndian.Uint64(msg[a : a+8])`. -/
def readU64 (msg : List Nat) (a : Nat) : Option Nat :=
  (slice? msg a (a + 8)).map leUint

/-- Embeds `binary.LittleEndian.Uint16(msg[a : a+2])`. -/
def readU16 (msg : List Nat) (a : Nat) : Option Nat :=
  (slice? msg a (a + 2)).map leUint

/-! Data model, from `model/smartstream.go`. -/

/-- Go `model.TokenInfo`: exchange id (`model.ExchangeType`, an `int`)
plus the exchange-assigned token string (kept as its bytes). -/
structure TokenInfo where
  ExchangeType : Int
  Token : List Nat
deriving DecidableEq, Repr

/-- Go `model.LTPInfo` (the BestPrice record). -/
structure LTPInfo where
  TokenInfo : TokenInfo
  SequenceNumber : Nat
  ExchangeFeedTimeEpochMillis : Nat
  LastTradedPrice : Nat
deriving DecidableEq, Repr

/-- Go `model.SmartApiBBSInfo`: one 20-byte order-book depth entry. -/
structure SmartApiBBSInfo where
  Flag : Nat
  Quantity : Nat
  Price : Nat
  NumberOfOrders : Nat
deriving DecidableEq, Repr

/-- Go `model.Quote`. `TotalBuyQty`/`TotalSellQty` hold the raw
`float64` bit patterns (see the module comment). -/
structure Quote where
  TokenInfo : TokenInfo
  SequenceNumber : Nat
  ExchangeFeedTimeEpochMillis : Nat
  LastTradedPrice : Nat
  LastTradedQty : Nat
  AvgTradedPrice : Nat
  VolumeTradedToday : Nat
  TotalBuyQty : Nat
  TotalSellQty : Nat
  OpenPrice : Nat
  HighPrice : Nat
  LowPrice : Nat
  ClosePrice : Nat
deriving DecidableEq, Repr

/-- Go `model.SnapQuote`. `OpenInterestChangePerc` holds the raw
`float64` bit pattern. -/
structure SnapQuote where
  TokenInfo : TokenInfo
  SequenceNumber : Nat
  ExchangeFeedTimeEpochMillis : Nat
  LastTradedPrice : Nat
  LastTradedQty : Nat
  AvgTradedPrice : Nat
  VolumeTradedToday : Nat
  TotalBuyQty : Nat
  TotalSellQty : Nat
  OpenPrice : Nat
  HighPrice : Nat
  LowPrice : Nat
  ClosePrice : Nat
  LastTradedTimestamp : Nat
  OpenInterest : Nat
  OpenInterestChangePerc : Nat
  BestFiveBuy : List SmartApiBBSInfo
  BestFiveSell : List SmartApiBBSInfo
  UpperCircuit : Nat
  LowerCircuit : Nat
  YearlyHighPrice : Nat
  YearlyLowPrice : Nat
deriving DecidableEq, Repr

/-! Binary frame parser, from `smartstream/internal/parser/parser.go`. -/

/-- Embeds the scanning loop of `getToken`:
`for i := 2; i < 27; i++ { tokenEnd++; if int(msg[i]) == 0 { break } }`.
`fuel` counts the remaining iterations (25 at entry, `i` running 2..26);
the index read `msg[i]` faults (`none`) when out of bounds. -/
def tokenEndAux (msg : List Nat) (i tokenEnd fuel : Nat) : Option Nat :=
  match fuel with
  | 0 => some tokenEnd
  | fuel' + 1 =>
    match msg[i]? with
    | none => none
    | some b =>
      if b = 0 then some (tokenEnd + 1) else tokenEndAux msg (i + 1) (tokenEnd + 1) fuel'

/-- Embeds `getToken`: exchange id from `msg[1]`, then the scan loop, then
the slice `msg[2 : tokenEnd+1]`. -/
def getToken (msg : List Nat) : Option TokenInfo := do
  let exb ← msg[1]?
  let tokenEnd ← tokenEndAux msg 2 0 25
  let tok ← slice? msg 2 (tokenEnd + 1)
  pure { ExchangeType := Int.ofNat exb, Token := tok }

/-- Embeds `ParseLTP`: sequence number at 27..34, exchange timestamp at
35..42, last traded price at 43..50, token info via `getToken`. -/
def ParseLTP (msg : List Nat) : Option LTPInfo := do
  let sequenceNumer ← readU64 msg 27
  let exchangeTimestamp ← readU64 msg 35
  let ltp ← readU64 msg 43
  let tok ← getToken msg
  pure { TokenInfo := tok, SequenceNumber := sequenceNumer,
         ExchangeFeedTimeEpochMillis := exchangeTimestamp, LastTradedPrice := ltp }

/-- Embeds `ParseQuote`: `ParseLTP` for the shared fields, then the
Quote-only fields at offsets 51..122. -/
def ParseQuote (msg : List Nat) : Option Quote := do
  let ltpInfo ← ParseLTP msg
  let lastTradedQty ← readU64 msg 51
  let avgTradedPrice ← readU64 msg 59
  let volumeTradedToday ← readU64 msg 67
  let totalBuyQty ← readU64 msg 75
  let totalSellQty ← readU64 msg 83
  let openPrice ← readU64 msg 91
  let highPrice ← readU64 msg 99
  let lowPrice ← readU64 msg 107
  let closePrice ← readU64 msg 115
  pure { TokenInfo := ltpInfo.TokenInfo, SequenceNumber := ltpInfo.SequenceNumber,
         ExchangeFeedTimeEpochMillis := ltpInfo.ExchangeFeedTimeEpochMillis,
         LastTradedPrice := ltpInfo.LastTradedPrice,
         LastTradedQty := lastTradedQty, AvgTradedPrice := avgTradedPrice,
         VolumeTradedToday := volumeTradedToday, TotalBuyQty := totalBuyQty,
         TotalSellQty := totalSellQty, OpenPrice := openPrice, HighPrice := highPrice,
         LowPrice := lowPrice, ClosePrice := closePrice }

/-- Embeds the loop of `getBestBuySellData`
(`for i := 0; i < 200; i = i + 20`): each 20-byte entry is read as flag
(uint16), quantity (uint64), price (uint64), order count (uint16), and
appended to the buy list when the flag is 1, to the sell list otherwise.
`fuel` counts the remaining iterations (10 at entry). -/
def bbsLoop (msg : List Nat) (i fuel : Nat) (buy sell : List SmartApiBBSInfo) :
    Option (List SmartApiBBSInfo × List SmartApiBBSInfo) :=
  match fuel with
  | 0 => some (buy, sell)
  | fuel' + 1 => do
    let flag ← readU16 msg i
    let qty ← readU64 msg (i + 2)
    let price ← readU64 msg (i + 10)
    let orders ← readU16 msg (i + 18)
    let info : SmartApiBBSInfo :=
      { Flag := flag, Quantity := qty, Price := price, NumberOfOrders := orders }
    if flag = 1 then bbsLoop msg (i + 20) fuel' (buy ++ [info]) sell
    else bbsLoop msg (i + 20) fuel' buy (sell ++ [info])

/-- Embeds `getBestBuySellData` over its 200-byte argument. -/
def getBestBuySellData (msg : List Nat) :
    Option (List SmartApiBBSInfo × List SmartApiBBSInfo) :=
  bbsLoop msg 0 10 [] []

/-- Embeds `ParseSnapquote`: `ParseQuote` for the shared fields, then the
Snapshot-only fields at offsets 123..378, with the depth block
`msg[147:347]` handed to `getBestBuySellData`. -/
def ParseSnapquote (msg : List Nat) : Option SnapQuote := do
  let quote ← ParseQuote msg
  let lastTradedTimestamp ← readU64 msg 123
  let openInterest ← readU64 msg 131
  let openInterestChangePerc ← readU64 msg 139
  let depthBytes ← slice? msg 147 347
  let bbs ← getBestBuySellData depthBytes
  let upperCircuit ← readU64 msg 347
  let lowerCircuit ← readU64 msg 355
  let yearlyHighPrice ← readU64 msg 363
  let yearlyLowPrice ← readU64 msg 371
  pure { TokenInfo := quote.TokenInfo, SequenceNumber := quote.SequenceNumber,
         ExchangeFeedTimeEpochMillis := quote.ExchangeFeedTimeEpochMillis,
         LastTradedPrice := quote.LastTradedPrice,
         LastTradedQty := quote.LastTradedQty, AvgTradedPrice := quote.AvgTradedPrice,
         VolumeTradedToday := quote.VolumeTradedToday, TotalBuyQty := quote.TotalBuyQty,
         TotalSellQty := quote.TotalSellQty, OpenPrice := quote.OpenPrice,
         HighPrice := quote.HighPrice, LowPrice := quote.LowPrice,
         ClosePrice := quote.ClosePrice,
         LastTradedTimestamp := lastTradedTimestamp, OpenInterest := openInterest,
         OpenInterestChangePerc := openInterestChangePerc,
         BestFiveBuy := bbs.1, BestFiveSell := bbs.2,
         UpperCircuit := upperCircuit, LowerCircuit := lowerCircuit,
         YearlyHighPrice := yearlyHighPrice, YearlyLowPrice := yearlyLowPrice }

/-! Socket-side definitions, from `smartstream/socket.go` and
`model/smartstream.go`. -/

/-- Go `model.LTP` subscription-mode constant. -/
def LTP : Nat := 1

/-- Go `model.QUOTE` subscription-mode constant. -/
def QUOTE : Nat := 2

/-- Go `model.SNAPQUOTE` subscription-mode constant. -/
def SNAPQUOTE : Nat := 3

/-- Go constant `reconnectMinDelay = 5000 * time.Millisecond`, in
nanoseconds (`time.Duration` units). -/
def reconnectMinDelay : Int := 5000000000

/-- Go constant `defaultReconnectMaxDelay = 60000 * time.Millisecond`, in
nanoseconds. -/
def defaultReconnectMaxDelay : Int := 60000000000

/-- Configuration state of `WebSocket` relevant to the delay setter. -/
structure WSConfig where
  reconnectMaxDelay : Int
deriving DecidableEq, Repr

/-- Embeds `SetReconnectMaxDelay`: the guard is `val > reconnectMinDelay`
exactly as in the source (`if val > reconnectMinDelay { return error }`),
and only the non-error path stores `val`. The Go error text is carried
without its apostrophe. -/
def SetReconnectMaxDelay (ws : WSConfig) (val : Int) : Except String WSConfig :=
  if val > reconnectMinDelay then
    Except.error "ReconnectMaxDelay cant be less than 5000.000000ms"
  else
    Except.ok { ws with reconnectMaxDelay := val }

/-- Embeds the backoff computation of `ConnectWithContext` (the
`if ws.reconnectAttempt > 0` block): `nextDelay` starts as
`time.Duration(math.Pow(2, attempt)) * time.Second` — exact for the
attempt counts considered, where `math.Pow(2, n)` is the exact integer
`2^n` — and is replaced by `reconnectMaxDelay` when it exceeds it or is
non-positive. `none` models the skipped branch at attempt 0 (no wait). -/
def reconnectBackoff (attempt : Nat) (maxDelay : Int) : Option Int :=
  if attempt > 0 then
    let nextDelay : Int := 2 ^ attempt * 1000000000
    some (if nextDelay > maxDelay ∨ nextDelay ≤ 0 then maxDelay else nextDelay)
  else none

/-- Delay actually waited at a given attempt count (0 when the backoff
branch is skipped), used to state backoff monotonicity. -/
def backoffWait (attempt : Nat) (maxDelay : Int) : Int :=
  (reconnectBackoff attempt maxDelay).getD 0

/-- Embeds `Subscribe`: the registry `subsMap` is the map from mode to
the accumulated token sequence (a total function, absent keys reading as
the empty list — the `make` on a missing key in the source writes the
empty list, which this representation absorbs). The network send
performed by `subscribeToTokens` is abstracted as the `send` outcome
parameter; on success the instruments are appended under `mode`, on
failure the error is returned and the map is untouched. -/
def Subscribe (send : Except String Unit) (subsMap : Nat → List TokenInfo)
    (mode : Nat) (tokenIds : List TokenInfo) :
    Except String Unit × (Nat → List TokenInfo) :=
  match send with
  | Except.ok _ =>
    (Except.ok (), fun m => if m = mode then subsMap m ++ tokenIds else subsMap m)
  | Except.error e => (Except.error e, subsMap)

/-- Gorilla websocket `TextMessage` frame-type constant. -/
def TextMessage : Nat := 1

/-- Gorilla websocket `BinaryMessage` frame-type constant. -/
def BinaryMessage : Nat := 2

/-- Outcome of one iteration of the `readMessage` loop on a received
frame: which callback is invoked with which parsed value, or that the
frame is dropped and the loop continues. -/
inductive ReadAction where
  | callOnLTP (l : LTPInfo)
  | callOnQuote (q : Quote)
  | callOnSnapquote (s : SnapQuote)
  | callOnText (t : List Nat)
  | dropUnrecognized
  | ignoreFrameType
deriving DecidableEq, Repr

/-- Embeds the frame-dispatch of one `readMessage` iteration: a binary
frame is switched on its leading mode byte (`model.SmartStreamSubsMode(msg[0])`,
faulting on an empty message) — 1 parses as LTP, 2 as Quote, 3 as
Snapquote, anything else only logs and continues; a text frame goes to
the text callback; other frame types fall through. -/
def handleFrame (mType : Nat) (msg : List Nat) : Option ReadAction :=
  if mType = BinaryMessage then do
    let mode ← msg[0]?
    if mode = LTP then (ParseLTP msg).map ReadAction.callOnLTP
    else if mode = QUOTE then (ParseQuote msg).map ReadAction.callOnQuote
    else if mode = SNAPQUOTE then (ParseSnapquote msg).map ReadAction.callOnSnapquote
    else some ReadAction.dropUnrecognized
  else if mType = TextMessage then some (ReadAction.callOnText msg)
  else some ReadAction.ignoreFrameType

/-- Go `model.SubscriptionTokens`: one (exchange, tokens) group. -/
structure SubscriptionTokens where
  ExchangeType : Int
  Tokens : List (List Nat)
deriving DecidableEq, Repr

/-- Go `model.SubscriptionParam`. -/
structure SubscriptionParam where
  Mode : Nat
  TokenList : List SubscriptionTokens
deriving DecidableEq, Repr

/-- Go `model.SubscriptionRequest`. -/
structure SubscriptionRequest where
  CorrelationID : String
  Action : Int
  Params : SubscriptionParam
deriving DecidableEq, Repr

/-- One step of building `exchangeTokenMap` in `createSubsRequest`: the
Go map is embedded as an association list in first-insertion key order
(a deterministic refinement of the unspecified map order; the properties
stated below do not depend on group order). A missing key is created
empty and the token appended, exactly as in the source. -/
def insertToken (m : List (Int × List (List Nat))) (e : Int) (t : List Nat) :
    List (Int × List (List Nat)) :=
  match m with
  | [] => [(e, [t])]
  | (k, ts) :: rest =>
    if k = e then (k, ts ++ [t]) :: rest else (k, ts) :: insertToken rest e t

/-- The `exchangeTokenMap` built by `createSubsRequest` from the input
instrument list. -/
def groupByExchange (tokenIds : List TokenInfo) : List (Int × List (List Nat)) :=
  tokenIds.foldl (fun m v => insertToken m v.ExchangeType v.Token) []

/-- Embeds `createSubsRequest` up to JSON serialization (the
`json.Marshal` call encodes exactly this record): action 1, constant
correlation id "abc", the given mode, and the grouped token list. -/
def createSubsRequest (mode : Nat) (tokenIds : List TokenInfo) : SubscriptionRequest :=
  { CorrelationID := "abc", Action := 1,
    Params := { Mode := mode,
                TokenList := (groupByExchange tokenIds).map
                  (fun p => { ExchangeType := p.1, Tokens := p.2 }) } }

/-! Helper lemmas about the byte-reading primitives. -/

theorem slice?_eq_of_le (msg : List Nat) (a b : Nat) (hab : a ≤ b) (hb : b ≤ msg.length) :
    slice? msg a b = some ((msg.drop a).take (b - a)) := by
  simp [slice?, hab, hb]

theorem slice?_eq_none {msg : List Nat} {a b : Nat} (hb : msg.length < b) :
    slice? msg a b = none := by
  simp only [slice?, ite_eq_right_iff]
  intro h
  omega

theorem readU64_eq (msg : List Nat) (a : Nat) (h : a + 8 ≤ msg.length) :
    readU64 msg a = some (leUint ((msg.drop a).take 8)) := by
  have := slice?_eq_of_le msg a (a + 8) (by omega) h
  simp [readU64, this]

theorem readU16_eq (msg : List Nat) (a : Nat) (h : a + 2 ≤ msg.length) :
    readU16 msg a = some (leUint ((msg.drop a).take 2)) := by
  have := slice?_eq_of_le msg a (a + 2) (by omega) h
  simp [readU16, this]

theorem readU64_eq_none (msg : List Nat) (a : Nat) (h : msg.length < a + 8) :
    readU64 msg a = none := by
  simp [readU64, slice?_eq_none h]

/-! Helper lemmas about list take/takeWhile used to describe the token scan. -/

theorem takeWhile_take_comm (p : Nat → Bool) :
    ∀ (v : List Nat) (n : Nat), (v.take n).takeWhile p = (v.takeWhile p).take n := by
  intro v
  induction v with
  | nil => intro n; simp
  | cons a v ih =>
    intro n
    cases n with
    | zero => simp
    | succ n =>
      by_cases hp : p a
      · simp [List.takeWhile_cons, hp, ih n]
      · simp [List.takeWhile_cons, hp]

theorem take_takeWhile_length (p : Nat → Bool) :
    ∀ v : List Nat, v.take (v.takeWhile p).length = v.takeWhile p := by
  intro v
  induction v with
  | nil => simp
  | cons a v ih =>
    by_cases hp : p a
    · simp [List.takeWhile_cons, hp, ih]
    · simp [List.takeWhile_cons, hp]

/-- Value of the `getToken` scan loop: with all reads in bounds, it
returns the starting count plus the number of iterations executed, which
is one more than the run of leading non-NUL bytes in the scanned window,
capped at the fuel. -/
theorem tokenEndAux_eq (msg : List Nat) :
    ∀ (fuel i tokenEnd : Nat), i + fuel ≤ msg.length →
      tokenEndAux msg i tokenEnd fuel =
        some (tokenEnd +
          min ((((msg.drop i).take fuel).takeWhile (fun b => b != 0)).length + 1) fuel) := by
  intro fuel
  induction fuel with
  | zero => intro i tokenEnd h; simp [tokenEndAux]
  | succ fuel ih =>
    intro i tokenEnd h
    have hi : i < msg.length := by omega
    have hdrop : msg.drop i = msg[i] :: msg.drop (i + 1) := List.drop_eq_getElem_cons hi
    rw [tokenEndAux, List.getElem?_eq_getElem hi]
    dsimp only
    by_cases hb : msg[i] = 0
    · rw [if_pos hb, hdrop]
      simp only [List.take_succ_cons, List.takeWhile_cons, hb, bne_self_eq_false,
        Bool.false_eq_true, if_false, List.length_nil, Nat.zero_add]
      congr 1
      omega
    · have ihg := ih (i + 1) (tokenEnd + 1) (by omega)
      rw [if_neg hb, ihg, hdrop]
      have hpb : (msg[i] != 0) = true := by simpa using hb
      simp only [List.take_succ_cons, List.takeWhile_cons, hpb, if_true, List.length_cons]
      congr 1
      omega

/-- Value of `getToken` on a buffer long enough for the scan: the
exchange id is the byte at offset 1 and the token is the run of non-NUL
bytes among the 24 bytes at offsets 2..25. -/
theorem getToken_eq (msg : List Nat) (h : 27 ≤ msg.length) :
    getToken msg =
      some { ExchangeType := Int.ofNat (msg.getD 1 0),
             Token := ((msg.drop 2).take 24).takeWhile (fun b => b != 0) } := by
  have h1 : (1 : Nat) < msg.length := by omega
  have hscan := tokenEndAux_eq msg 25 2 0 (by omega)
  set s := (((msg.drop 2).take 25).takeWhile (fun b => b != 0)).length with hs
  have hsL : s = min 25 ((msg.drop 2).takeWhile (fun b => b != 0)).length := by
    rw [hs, ← List.take_takeWhile, List.length_take]
  have hsle : s ≤ 25 := by omega
  have hmin : min (s + 1) 25 + 1 ≤ msg.length := by omega
  have hslice := slice?_eq_of_le msg 2 (min (s + 1) 25 + 1)
    (by omega) hmin
  rw [getToken, List.getElem?_eq_getElem h1, Option.bind_eq_bind]
  simp only [Option.some_bind, hscan, Nat.zero_add, hslice]
  have hgetD : msg.getD 1 0 = msg[1] := by
    simp [List.getD_eq_getElem?_getD, List.getElem?_eq_getElem h1]
  have htw : (msg.drop 2).take (min (s + 1) 25 + 1 - 2) =
      ((msg.drop 2).take 24).takeWhile (fun b => b != 0) := by
    calc (msg.drop 2).take (min (s + 1) 25 + 1 - 2)
        = ((msg.drop 2).take (((msg.drop 2).takeWhile (fun b => b != 0)).length)).take 24 := by
          rw [List.take_take]
          congr 1
          omega
      _ = ((msg.drop 2).takeWhile (fun b => b != 0)).take 24 := by
          rw [take_takeWhile_length]
      _ = ((msg.drop 2).take 24).takeWhile (fun b => b != 0) := List.take_takeWhile _ _
  rw [htw, hgetD]
  simp

/-- Depth entry read at byte offset `i`: flag (uint16), quantity
(uint64), price (uint64), order count (uint16), at the documented
relative offsets 0, 2, 10, 18. -/
def entryAt (msg : List Nat) (i : Nat) : SmartApiBBSInfo :=
  { Flag := leUint ((msg.drop i).take 2),
    Quantity := leUint ((msg.drop (i + 2)).take 8),
    Price := leUint ((msg.drop (i + 10)).take 8),
    NumberOfOrders := leUint ((msg.drop (i + 18)).take 2) }

/-- The sequence of `fuel` consecutive 20-byte depth entries starting at
byte offset `i`, in buffer order. -/
def entriesFrom (msg : List Nat) (i : Nat) : Nat → List SmartApiBBSInfo
  | 0 => []
  | fuel + 1 => entryAt msg i :: entriesFrom msg (i + 20) fuel

theorem entriesFrom_length (msg : List Nat) :
    ∀ (fuel i : Nat), (entriesFrom msg i fuel).length = fuel := by
  intro fuel
  induction fuel with
  | zero => intro i; simp [entriesFrom]
  | succ fuel ih => intro i; simp [entriesFrom, ih]

theorem filter_flag_length (l : List SmartApiBBSInfo) :
    (l.filter (fun e => e.Flag == 1)).length +
      (l.filter (fun e => e.Flag != 1)).length = l.length := by
  induction l with
  | nil => simp
  | cons a l ih =>
    by_cases h : a.Flag = 1 <;> simp [List.filter_cons, h] <;> omega

/-- Value of the `getBestBuySellData` loop: with all reads in bounds it
succeeds, appending to the buy accumulator exactly the scanned entries
whose flag is 1 and to the sell accumulator the others, keeping buffer
order within each side. -/
theorem bbsLoop_eq (msg : List Nat) :
    ∀ (fuel i : Nat) (buy sell : List SmartApiBBSInfo), i + 20 * fuel ≤ msg.length →
      bbsLoop msg i fuel buy sell =
        some (buy ++ (entriesFrom msg i fuel).filter (fun e => e.Flag == 1),
              sell ++ (entriesFrom msg i fuel).filter (fun e => e.Flag != 1)) := by
  intro fuel
  induction fuel with
  | zero => intro i buy sell h; simp [bbsLoop, entriesFrom]
  | succ fuel ih =>
    intro i buy sell h
    have r0 := readU16_eq msg (i) (by omega)
    have r2 := readU64_eq msg (i + 2) (by omega)
    have r10 := readU64_eq msg (i + 10) (by omega)
    have r18 := readU16_eq msg (i + 18) (by omega)
    have hcons : entriesFrom msg i (fuel + 1) = entryAt msg i :: entriesFrom msg (i + 20) fuel := rfl
    by_cases hf : leUint ((msg.drop i).take 2) = 1
    · have hstep : bbsLoop msg i (fuel + 1) buy sell =
          bbsLoop msg (i + 20) fuel (buy ++ [entryAt msg i]) sell := by
        simp only [bbsLoop, Option.bind_eq_bind, r0, r2, r10, r18, Option.some_bind]
        rw [if_pos hf]
        rfl
      rw [hstep, ih (i + 20) (buy ++ [entryAt msg i]) sell (by omega)]
      have hp : ((entryAt msg i).Flag == 1) = true := by simp [entryAt, hf]
      have hq : ((entryAt msg i).Flag != 1) = false := by simp [entryAt, hf]
      rw [hcons, List.filter_cons, List.filter_cons, hp, hq]
      simp
    · have hstep : bbsLoop msg i (fuel + 1) buy sell =
          bbsLoop msg (i + 20) fuel buy (sell ++ [entryAt msg i]) := by
        simp only [bbsLoop, Option.bind_eq_bind, r0, r2, r10, r18, Option.some_bind]
        rw [if_neg hf]
        rfl
      rw [hstep, ih (i + 20) buy (sell ++ [entryAt msg i]) (by omega)]
      have hp : ((entryAt msg i).Flag == 1) = false := by simp [entryAt, hf]
      have hq : ((entryAt msg i).Flag != 1) = true := by simp [entryAt, hf]
      rw [hcons, List.filter_cons, List.filter_cons, hp, hq]
      simp

/-- Value of `ParseLTP` on a buffer of length at least 51. -/
theorem ParseLTP_eq (msg : List Nat) (h : 51 ≤ msg.length) :
    ParseLTP msg =
      some { TokenInfo := { ExchangeType := Int.ofNat (msg.getD 1 0),
                            Token := ((msg.drop 2).take 24).takeWhile (fun b => b != 0) },
             SequenceNumber := leUint ((msg.drop 27).take 8),
             ExchangeFeedTimeEpochMillis := leUint ((msg.drop 35).take 8),
             LastTradedPrice := leUint ((msg.drop 43).take 8) } := by
  have r27 := readU64_eq msg (27) (by omega)
  have r35 := readU64_eq msg (35) (by omega)
  have r43 := readU64_eq msg (43) (by omega)
  have gt := getToken_eq msg (by omega)
  simp [ParseLTP, r27, r35, r43, gt]

/-- Value of `ParseQuote` on a buffer of length at least 123. -/
theorem ParseQuote_eq (msg : List Nat) (h : 123 ≤ msg.length) :
    ParseQuote msg =
      some { TokenInfo := { ExchangeType := Int.ofNat (msg.getD 1 0),
                            Token := ((msg.drop 2).take 24).takeWhile (fun b => b != 0) },
             SequenceNumber := leUint ((msg.drop 27).take 8),
             ExchangeFeedTimeEpochMillis := leUint ((msg.drop 35).take 8),
             LastTradedPrice := leUint ((msg.drop 43).take 8),
             LastTradedQty := leUint ((msg.drop 51).take 8),
             AvgTradedPrice := leUint ((msg.drop 59).take 8),
             VolumeTradedToday := leUint ((msg.drop 67).take 8),
             TotalBuyQty := leUint ((msg.drop 75).take 8),
             TotalSellQty := leUint ((msg.drop 83).take 8),
             OpenPrice := leUint ((msg.drop 91).take 8),
             HighPrice := leUint ((msg.drop 99).take 8),
             LowPrice := leUint ((msg.drop 107).take 8),
             ClosePrice := leUint ((msg.drop 115).take 8) } := by
  have hltp := ParseLTP_eq msg (by omega)
  have r51 := readU64_eq msg (51) (by omega)
  have r59 := readU64_eq msg (59) (by omega)
  have r67 := readU64_eq msg (67) (by omega)
  have r75 := readU64_eq msg (75) (by omega)
  have r83 := readU64_eq msg (83) (by omega)
  have r91 := readU64_eq msg (91) (by omega)
  have r99 := readU64_eq msg (99) (by omega)
  have r107 := readU64_eq msg (107) (by omega)
  have r115 := readU64_eq msg (115) (by omega)
  simp [ParseQuote, hltp, r51, r59, r67, r75, r83, r91, r99, r107, r115]

/-- Value of `ParseSnapquote` on a buffer of length at least 379. -/
theorem ParseSnapquote_eq (msg : List Nat) (h : 379 ≤ msg.length) :
    ParseSnapquote msg =
      some { TokenInfo := { ExchangeType := Int.ofNat (msg.getD 1 0),
                            Token := ((msg.drop 2).take 24).takeWhile (fun b => b != 0) },
             SequenceNumber := leUint ((msg.drop 27).take 8),
             ExchangeFeedTimeEpochMillis := leUint ((msg.drop 35).take 8),
             LastTradedPrice := leUint ((msg.drop 43).take 8),
             LastTradedQty := leUint ((msg.drop 51).take 8),
             AvgTradedPrice := leUint ((msg.drop 59).take 8),
             VolumeTradedToday := leUint ((msg.drop 67).take 8),
             TotalBuyQty := leUint ((msg.drop 75).take 8),
             TotalSellQty := leUint ((msg.drop 83).take 8),
             OpenPrice := leUint ((msg.drop 91).take 8),
             HighPrice := leUint ((msg.drop 99).take 8),
             LowPrice := leUint ((msg.drop 107).take 8),
             ClosePrice := leUint ((msg.drop 115).take 8),
             LastTradedTimestamp := leUint ((msg.drop 123).take 8),
             OpenInterest := leUint ((msg.drop 131).take 8),
             OpenInterestChangePerc := leUint ((msg.drop 139).take 8),
             BestFiveBuy := (entriesFrom ((msg.drop 147).take 200) 0 10).filter
               (fun e => e.Flag == 1),
             BestFiveSell := (entriesFrom ((msg.drop 147).take 200) 0 10).filter
               (fun e => e.Flag != 1),
             UpperCircuit := leUint ((msg.drop 347).take 8),
             LowerCircuit := leUint ((msg.drop 355).take 8),
             YearlyHighPrice := leUint ((msg.drop 363).take 8),
             YearlyLowPrice := leUint ((msg.drop 371).take 8) } := by
  have hq := ParseQuote_eq msg (by omega)
  have r123 := readU64_eq msg (123) (by omega)
  have r131 := readU64_eq msg (131) (by omega)
  have r139 := readU64_eq msg (139) (by omega)
  have hslice := slice?_eq_of_le msg 147 (347) (by omega) (by omega)
  have hdlen : ((msg.drop 147).take (347 - 147)).length = 200 := by
    rw [List.length_take, List.length_drop]
    omega
  have hbbs : getBestBuySellData ((msg.drop 147).take (347 - 147)) =
      some ((entriesFrom ((msg.drop 147).take 200) 0 10).filter (fun e => e.Flag == 1),
            (entriesFrom ((msg.drop 147).take 200) 0 10).filter (fun e => e.Flag != 1)) := by
    have := bbsLoop_eq ((msg.drop 147).take (347 - 147)) 10 0 [] [] (by rw [hdlen])
    simpa [getBestBuySellData] using this
  have r347 := readU64_eq msg (347) (by omega)
  have r355 := readU64_eq msg (355) (by omega)
  have r363 := readU64_eq msg (363) (by omega)
  have r371 := readU64_eq msg (371) (by omega)
  simp [ParseSnapquote, hq, r123, r131, r139, hslice, hbbs, r347, r355, r363, r371]

/-! Claim theorems. -/

/-- Claim C2 (code bug): `SetReconnectMaxDelay` rejects 60s — a value that
exceeds the 5s minimum floor and should be accepted per the spec and per
the error message of the function itself — while it accepts and stores
1s, a value below the floor the message says is disallowed: the guard
`val > reconnectMinDelay` is inverted. -/
theorem setReconnectMaxDelay_guard_inverted :
    SetReconnectMaxDelay { reconnectMaxDelay := defaultReconnectMaxDelay } 60000000000 =
      Except.error "ReconnectMaxDelay cant be less than 5000.000000ms" ∧
    SetReconnectMaxDelay { reconnectMaxDelay := defaultReconnectMaxDelay } 1000000000 =
      Except.ok { reconnectMaxDelay := 1000000000 } := by
  constructor
  · rfl
  · rfl

/-- Claim C5: for every positive attempt count the computed backoff equals
`min maxDelay (2^attempt seconds)`; at attempt 0 the backoff branch is
skipped; over attempts 0..10 with the default 60s cap the waited delay
is non-decreasing and capped at 60s. -/
theorem backoff_min_monotone_capped :
    (∀ (n : Nat) (d : Int), 0 < n →
      reconnectBackoff n d = some (min d (2 ^ n * 1000000000))) ∧
    reconnectBackoff 0 defaultReconnectMaxDelay = none ∧
    (∀ i, i ≤ 10 → ∀ j, j ≤ 10 → i ≤ j →
      backoffWait i defaultReconnectMaxDelay ≤ backoffWait j defaultReconnectMaxDelay) ∧
    (∀ i, i ≤ 10 → backoffWait i defaultReconnectMaxDelay ≤ 60000000000) := by
  refine ⟨?_, ?_, ?_, ?_⟩
  · intro n d hn
    have hpow : (0 : Int) < 2 ^ n * 1000000000 := by positivity
    have hred : reconnectBackoff n d =
        some (if 2 ^ n * 1000000000 > d ∨ (2 : Int) ^ n * 1000000000 ≤ 0 then d
              else 2 ^ n * 1000000000) := by
      rw [reconnectBackoff, if_pos hn]
    rw [hred]
    by_cases hgt : (2 : Int) ^ n * 1000000000 > d
    · rw [if_pos (Or.inl hgt)]
      congr 1
      omega
    · have hno : ¬((2 : Int) ^ n * 1000000000 > d ∨ (2 : Int) ^ n * 1000000000 ≤ 0) := by
        push_neg
        exact ⟨by omega, by omega⟩
      rw [if_neg hno]
      congr 1
      omega
  · rfl
  · decide
  · decide

/-- Witness for C5 at concrete attempt counts. -/
theorem backoff_min_monotone_capped_witness :
    reconnectBackoff 3 defaultReconnectMaxDelay =
      some (min defaultReconnectMaxDelay (2 ^ 3 * 1000000000)) ∧
    backoffWait 5 defaultReconnectMaxDelay ≤ backoffWait 9 defaultReconnectMaxDelay ∧
    backoffWait 10 defaultReconnectMaxDelay ≤ 60000000000 :=
  ⟨backoff_min_monotone_capped.1 3 defaultReconnectMaxDelay (by decide),
   backoff_min_monotone_capped.2.2.1 5 (by decide) 9 (by decide) (by decide),
   backoff_min_monotone_capped.2.2.2 10 (by decide)⟩

/-- Claim C9: a binary frame whose leading mode byte is none of 1 (LTP),
2 (QUOTE), 3 (SNAPQUOTE) makes the read loop drop the frame and continue:
no parser runs and no callback is invoked. -/
theorem unrecognized_mode_dropped :
    ∀ (msg : List Nat) (b : Nat), msg[0]? = some b →
      b ≠ LTP → b ≠ QUOTE → b ≠ SNAPQUOTE →
      handleFrame BinaryMessage msg = some ReadAction.dropUnrecognized := by
  intro msg b h0 h1 h2 h3
  rw [handleFrame, if_pos rfl]
  rw [h0]
  simp only [Option.bind_eq_bind, Option.some_bind]
  rw [if_neg h1, if_neg h2, if_neg h3]

/-- Witness for C9 on a frame with mode byte 7. -/
theorem unrecognized_mode_dropped_witness :
    handleFrame BinaryMessage [7, 0, 0] = some ReadAction.dropUnrecognized :=
  unrecognized_mode_dropped [7, 0, 0] 7 rfl (by decide) (by decide) (by decide)

/-- Claim C6: on a successful send `Subscribe` appends exactly the given
instruments to the registry under the given mode, touches no other mode,
and never deduplicates (two successful calls with the same instrument
leave its count increased by two); on a failed send the error propagates
and every mode of the registry is unchanged. -/
theorem subscribe_appends_or_leaves_registry :
    ∀ (send : Except String Unit) (subsMap : Nat → List TokenInfo)
      (mode : Nat) (tokenIds : List TokenInfo),
      (send = Except.ok () →
        (Subscribe send subsMap mode tokenIds).1 = Except.ok () ∧
        (Subscribe send subsMap mode tokenIds).2 mode = subsMap mode ++ tokenIds ∧
        ∀ m, m ≠ mode → (Subscribe send subsMap mode tokenIds).2 m = subsMap m) ∧
      (∀ e, send = Except.error e →
        (Subscribe send subsMap mode tokenIds).1 = Except.error e ∧
        ∀ m, (Subscribe send subsMap mode tokenIds).2 m = subsMap m) ∧
      (∀ t : TokenInfo,
        (((Subscribe (Except.ok ())
            ((Subscribe (Except.ok ()) subsMap mode [t]).2) mode [t]).2 mode).count t)
          = (subsMap mode).count t + 2) := by
  intro send subsMap mode tokenIds
  refine ⟨?_, ?_, ?_⟩
  · intro hok
    subst hok
    refine ⟨rfl, by simp [Subscribe], ?_⟩
    intro m hm
    simp [Subscribe, hm]
  · intro e herr
    subst herr
    exact ⟨rfl, fun m => rfl⟩
  · intro t
    simp [Subscribe, List.count_append]

/-- Witness for C6: a successful and a failing call on a concrete
registry. -/
theorem subscribe_appends_or_leaves_registry_witness :
    ((Subscribe (Except.ok ()) (fun _ => []) 3
        [{ ExchangeType := 1, Token := [49, 53, 57, 52] }]).1 = Except.ok () ∧
     (Subscribe (Except.ok ()) (fun _ => []) 3
        [{ ExchangeType := 1, Token := [49, 53, 57, 52] }]).2 3 =
          [] ++ [{ ExchangeType := 1, Token := [49, 53, 57, 52] }] ∧
     ∀ m, m ≠ 3 → (Subscribe (Except.ok ()) (fun _ => []) 3
        [{ ExchangeType := 1, Token := [49, 53, 57, 52] }]).2 m = []) ∧
    ((Subscribe (Except.error "send failed") (fun _ => []) 3
        [{ ExchangeType := 1, Token := [49, 53, 57, 52] }]).1 = Except.error "send failed" ∧
     ∀ m, (Subscribe (Except.error "send failed") (fun _ => []) 3
        [{ ExchangeType := 1, Token := [49, 53, 57, 52] }]).2 m = []) :=
  ⟨(subscribe_appends_or_leaves_registry (Except.ok ()) (fun _ => []) 3
      [{ ExchangeType := 1, Token := [49, 53, 57, 52] }]).1 rfl,
   ((subscribe_appends_or_leaves_registry (Except.error "send failed") (fun _ => []) 3
      [{ ExchangeType := 1, Token := [49, 53, 57, 52] }]).2.1 "send failed" rfl)⟩

/-- Tokens appearing under exchange `e` in a grouped association list,
in group order then in-group order. -/
def selGroups (m : List (Int × List (List Nat))) (e : Int) : List (List Nat) :=
  (m.filterMap (fun p => if p.1 = e then some p.2 else none)).flatten

/-- Tokens appearing under exchange `e` in a subscription token list. -/
def selectTokens (tl : List SubscriptionTokens) (e : Int) : List (List Nat) :=
  (tl.filterMap (fun g => if g.ExchangeType = e then some g.Tokens else none)).flatten

theorem selGroups_cons (k : Int) (ts : List (List Nat)) (m : List (Int × List (List Nat)))
    (e : Int) :
    selGroups ((k, ts) :: m) e = (if k = e then ts else []) ++ selGroups m e := by
  by_cases h : k = e <;> simp [selGroups, List.filterMap_cons, h]

theorem selGroups_of_not_mem :
    ∀ (m : List (Int × List (List Nat))) (e : Int),
      e ∉ m.map Prod.fst → selGroups m e = [] := by
  intro m
  induction m with
  | nil => intro e h; simp [selGroups]
  | cons p rest ih =>
    intro e h
    simp only [List.map_cons, List.mem_cons, not_or] at h
    have h1 : ¬(p.1 = e) := fun hh => h.1 hh.symm
    rw [show (p :: rest : List (Int × List (List Nat))) = (p.1, p.2) :: rest from rfl,
      selGroups_cons, if_neg h1, ih e h.2]
    rfl

theorem keys_insertToken :
    ∀ (m : List (Int × List (List Nat))) (e : Int) (t : List Nat),
      (insertToken m e t).map Prod.fst =
        if e ∈ m.map Prod.fst then m.map Prod.fst else m.map Prod.fst ++ [e] := by
  intro m
  induction m with
  | nil => intro e t; simp [insertToken]
  | cons p rest ih =>
    intro e t
    obtain ⟨k, ts⟩ := p
    by_cases hk : k = e
    · simp [insertToken, hk]
    · have hk2 : ¬(e = k) := fun hh => hk hh.symm
      by_cases hmem : e ∈ rest.map Prod.fst
      · simp [insertToken, hk, ih, hmem, hk2]
      · simp [insertToken, hk, ih, hmem, hk2]

theorem nodupKeys_insertToken {m : List (Int × List (List Nat))} {e : Int} {t : List Nat}
    (h : (m.map Prod.fst).Nodup) : ((insertToken m e t).map Prod.fst).Nodup := by
  rw [keys_insertToken]
  by_cases hmem : e ∈ m.map Prod.fst
  · rw [if_pos hmem]; exact h
  · rw [if_neg hmem]
    simp only [List.nodup_append, List.nodup_cons, List.not_mem_nil, not_false_eq_true,
      List.nodup_nil, and_true, true_and]
    refine ⟨h, ?_⟩
    intro a ha hb
    simp only [List.mem_singleton] at hb
    exact hmem (hb ▸ ha)

theorem selGroups_insertToken :
    ∀ (m : List (Int × List (List Nat))) (k : Int) (t : List Nat) (e : Int),
      (m.map Prod.fst).Nodup →
      selGroups (insertToken m k t) e = selGroups m e ++ (if k = e then [t] else []) := by
  intro m
  induction m with
  | nil =>
    intro k t e _
    by_cases hk : k = e <;> simp [insertToken, selGroups, List.filterMap_cons, hk]
  | cons p rest ih =>
    intro k t e hnd
    obtain ⟨kk, ts⟩ := p
    simp only [List.map_cons, List.nodup_cons] at hnd
    obtain ⟨hknotin, hndrest⟩ := hnd
    by_cases hkk : kk = k
    · subst hkk
      rw [show insertToken ((kk, ts) :: rest) kk t = (kk, ts ++ [t]) :: rest by
        simp [insertToken]]
      rw [selGroups_cons, selGroups_cons]
      by_cases hke : kk = e
      · rw [if_pos hke, if_pos hke, if_pos hke]
        rw [selGroups_of_not_mem rest e (hke ▸ hknotin)]
        simp
      · rw [if_neg hke, if_neg hke, if_neg hke]
        simp
    · rw [show insertToken ((kk, ts) :: rest) k t = (kk, ts) :: insertToken rest k t by
        simp [insertToken, hkk]]
      rw [selGroups_cons, selGroups_cons, ih k t e hndrest, List.append_assoc]

theorem selGroups_foldl :
    ∀ (ids : List TokenInfo) (m : List (Int × List (List Nat))) (e : Int),
      (m.map Prod.fst).Nodup →
      selGroups (ids.foldl (fun acc v => insertToken acc v.ExchangeType v.Token) m) e =
        selGroups m e ++ (ids.filter (fun v => v.ExchangeType == e)).map (fun v => v.Token) := by
  intro ids
  induction ids with
  | nil => intro m e h; simp
  | cons v ids ih =>
    intro m e h
    rw [List.foldl_cons, ih _ e (nodupKeys_insertToken h), selGroups_insertToken m _ _ e h]
    by_cases hv : v.ExchangeType = e
    · simp [List.filter_cons, hv]
    · simp [List.filter_cons, hv]

/-- Claim C10: the subscription request always carries action code 1 and the
constant correlation id "abc", carries the given mode, and for each
exchange id the tokens grouped under it are exactly the input tokens of
that exchange in input order — so every input token occurs exactly once,
in the group of its own exchange. -/
theorem createSubsRequest_fields :
    ∀ (mode : Nat) (tokenIds : List TokenInfo),
      (createSubsRequest mode tokenIds).Action = 1 ∧
      (createSubsRequest mode tokenIds).CorrelationID = "abc" ∧
      (createSubsRequest mode tokenIds).Params.Mode = mode ∧
      ∀ e : Int,
        selectTokens (createSubsRequest mode tokenIds).Params.TokenList e =
          (tokenIds.filter (fun v => v.ExchangeType == e)).map (fun v => v.Token) := by
  intro mode ids
  refine ⟨rfl, rfl, rfl, ?_⟩
  intro e
  have hsel :
      selectTokens ((groupByExchange ids).map
        (fun p => ({ ExchangeType := p.1, Tokens := p.2 } : SubscriptionTokens))) e =
        selGroups (groupByExchange ids) e := by
    rw [selectTokens, selGroups, List.filterMap_map]
    rfl
  rw [show (createSubsRequest mode ids).Params.TokenList =
      (groupByExchange ids).map
        (fun p => ({ ExchangeType := p.1, Tokens := p.2 } : SubscriptionTokens)) from rfl,
    hsel]
  have hmain := selGroups_foldl ids [] e (by simp)
  rw [groupByExchange, hmain]
  rfl

/-- Claim C1: on any valid Snapshot payload the three parsers agree
field-for-field on all shared fields: Quote repeats the BestPrice fields
and Snapshot repeats all Quote fields. -/
theorem parser_layering_agrees :
    ∀ msg : List Nat, 379 ≤ msg.length →
      ∃ (l : LTPInfo) (q : Quote) (s : SnapQuote),
        ParseLTP msg = some l ∧ ParseQuote msg = some q ∧ ParseSnapquote msg = some s ∧
        q.TokenInfo = l.TokenInfo ∧ q.SequenceNumber = l.SequenceNumber ∧
        q.ExchangeFeedTimeEpochMillis = l.ExchangeFeedTimeEpochMillis ∧
        q.LastTradedPrice = l.LastTradedPrice ∧
        s.TokenInfo = q.TokenInfo ∧ s.SequenceNumber = q.SequenceNumber ∧
        s.ExchangeFeedTimeEpochMillis = q.ExchangeFeedTimeEpochMillis ∧
        s.LastTradedPrice = q.LastTradedPrice ∧ s.LastTradedQty = q.LastTradedQty ∧
        s.AvgTradedPrice = q.AvgTradedPrice ∧ s.VolumeTradedToday = q.VolumeTradedToday ∧
        s.TotalBuyQty = q.TotalBuyQty ∧ s.TotalSellQty = q.TotalSellQty ∧
        s.OpenPrice = q.OpenPrice ∧ s.HighPrice = q.HighPrice ∧ s.LowPrice = q.LowPrice ∧
        s.ClosePrice = q.ClosePrice := by
  intro msg h
  exact ⟨_, _, _, ParseLTP_eq msg (by omega), ParseQuote_eq msg (by omega),
    ParseSnapquote_eq msg (by omega), rfl, rfl, rfl, rfl, rfl, rfl, rfl, rfl, rfl, rfl,
    rfl, rfl, rfl, rfl, rfl, rfl, rfl⟩

/-- Witness for C1 on a concrete 379-byte snapshot buffer. -/
theorem parser_layering_agrees_witness :
    ∃ (l : LTPInfo) (q : Quote) (s : SnapQuote),
      ParseLTP (3 :: List.replicate 378 0) = some l ∧
      ParseQuote (3 :: List.replicate 378 0) = some q ∧
      ParseSnapquote (3 :: List.replicate 378 0) = some s ∧
      q.TokenInfo = l.TokenInfo ∧ q.SequenceNumber = l.SequenceNumber ∧
      q.ExchangeFeedTimeEpochMillis = l.ExchangeFeedTimeEpochMillis ∧
      q.LastTradedPrice = l.LastTradedPrice ∧
      s.TokenInfo = q.TokenInfo ∧ s.SequenceNumber = q.SequenceNumber ∧
      s.ExchangeFeedTimeEpochMillis = q.ExchangeFeedTimeEpochMillis ∧
      s.LastTradedPrice = q.LastTradedPrice ∧ s.LastTradedQty = q.LastTradedQty ∧
      s.AvgTradedPrice = q.AvgTradedPrice ∧ s.VolumeTradedToday = q.VolumeTradedToday ∧
      s.TotalBuyQty = q.TotalBuyQty ∧ s.TotalSellQty = q.TotalSellQty ∧
      s.OpenPrice = q.OpenPrice ∧ s.HighPrice = q.HighPrice ∧ s.LowPrice = q.LowPrice ∧
      s.ClosePrice = q.ClosePrice :=
  parser_layering_agrees (3 :: List.replicate 378 0) (by simp)

/-- Buffer exhibiting the C3 off-by-one: its 25-byte token field at
offsets 2..26 contains no NUL (all bytes are 65). -/
def c3buf : List Nat := [1, 7] ++ List.replicate 25 65 ++ List.replicate 24 0

/-- Claim C3 counterexample: on a 51-byte payload whose token field has no NUL,
`getToken` yields only the 24 bytes at offsets 2..25 — not all 25 bytes
of the field as the claim states. -/
theorem token_no_nul_counterexample :
    getToken c3buf = some { ExchangeType := 7, Token := List.replicate 24 65 } ∧
    ({ ExchangeType := 7, Token := List.replicate 24 65 } : TokenInfo) ≠
      { ExchangeType := 7, Token := List.replicate 25 65 } := by
  constructor
  · decide
  · decide

/-- Claim C3 as amended: the token is the run of bytes from offset 2 up to but
excluding the first NUL among offsets 2..25; when no NUL occurs there it
is the 24 bytes at offsets 2..25 (the byte at offset 26 is never part of
the token); the exchange id is the byte at offset 1. -/
theorem token_scan_amended :
    ∀ msg : List Nat, 51 ≤ msg.length →
      getToken msg =
        some { ExchangeType := Int.ofNat (msg.getD 1 0),
               Token := ((msg.drop 2).take 24).takeWhile (fun b => b != 0) } := by
  intro msg h
  exact getToken_eq msg (by omega)

/-- Witness for the amended C3 on a concrete 51-byte payload. -/
theorem token_scan_amended_witness :
    getToken ([1, 3, 65, 66, 0] ++ List.replicate 46 0) =
      some { ExchangeType := Int.ofNat (([1, 3, 65, 66, 0] ++ List.replicate 46 0).getD 1 0),
             Token := ((([1, 3, 65, 66, 0] ++ List.replicate 46 0).drop 2).take 24).takeWhile
               (fun b => b != 0) } :=
  token_scan_amended ([1, 3, 65, 66, 0] ++ List.replicate 46 0) (by simp)

/-- Claim C4: over a 200-byte depth region the parser returns exactly the ten
read entries partitioned by flag — the buy side is the subsequence of
entries with flag 1 and the sell side the others, each in original
relative order — and the two sides always have 10 entries in total. -/
theorem depth_partition :
    ∀ msg : List Nat, 200 ≤ msg.length →
      getBestBuySellData msg =
        some ((entriesFrom msg 0 10).filter (fun e => e.Flag == 1),
              (entriesFrom msg 0 10).filter (fun e => e.Flag != 1)) ∧
      ∀ buy sell, getBestBuySellData msg = some (buy, sell) →
        buy.length + sell.length = 10 := by
  intro msg h
  have h1 := bbsLoop_eq msg 10 0 [] [] (by omega)
  have hmain : getBestBuySellData msg =
      some ((entriesFrom msg 0 10).filter (fun e => e.Flag == 1),
            (entriesFrom msg 0 10).filter (fun e => e.Flag != 1)) := by
    simpa [getBestBuySellData] using h1
  refine ⟨hmain, ?_⟩
  intro buy sell hbs
  rw [hmain, Option.some.injEq, Prod.mk.injEq] at hbs
  obtain ⟨hb, hs⟩ := hbs
  rw [← hb, ← hs]
  have hf := filter_flag_length (entriesFrom msg 0 10)
  rw [entriesFrom_length] at hf
  exact hf

/-- Buffer of ten 20-byte depth entries with flags 1,1,1,1,1,0,0,0,0,0. -/
def c4buf : List Nat :=
  List.flatten (List.replicate 5 ([1, 0] ++ List.replicate 18 0)) ++ List.replicate 100 0

/-- Witness for C4: on the flag pattern 1,1,1,1,1,0,0,0,0,0 the split is
exactly 5 buys and 5 sells. -/
theorem depth_partition_witness :
    getBestBuySellData c4buf =
      some ((entriesFrom c4buf 0 10).filter (fun e => e.Flag == 1),
            (entriesFrom c4buf 0 10).filter (fun e => e.Flag != 1)) ∧
    ((entriesFrom c4buf 0 10).filter (fun e => e.Flag == 1)).length = 5 ∧
    ((entriesFrom c4buf 0 10).filter (fun e => e.Flag != 1)).length = 5 :=
  ⟨(depth_partition c4buf (by decide)).1, by decide, by decide⟩

/-- Claim C7: on a 51-byte buffer with mode tag 1 the BestPrice parser reads
the sequence number from offsets 27..34, the exchange feed timestamp
from 35..42, the last traded price from 43..50 (all little-endian), and
the instrument from the exchange id at offset 1 with the token decoded
from the token field. -/
theorem ltp_frame_fields :
    ∀ msg : List Nat, msg.length = 51 → msg.getD 0 0 = 1 →
      ∃ t, getToken msg = some t ∧
        ParseLTP msg =
          some { TokenInfo := t,
                 SequenceNumber := leUint ((msg.drop 27).take 8),
                 ExchangeFeedTimeEpochMillis := leUint ((msg.drop 35).take 8),
                 LastTradedPrice := leUint ((msg.drop 43).take 8) } := by
  intro msg h hm
  exact ⟨_, getToken_eq msg (by omega), ParseLTP_eq msg (by omega)⟩

/-- Witness for C7 on a concrete 51-byte mode-1 buffer. -/
theorem ltp_frame_fields_witness :
    ∃ t, getToken (1 :: List.replicate 50 0) = some t ∧
      ParseLTP (1 :: List.replicate 50 0) =
        some { TokenInfo := t,
               SequenceNumber := leUint (((1 :: List.replicate 50 0).drop 27).take 8),
               ExchangeFeedTimeEpochMillis :=
                 leUint (((1 :: List.replicate 50 0).drop 35).take 8),
               LastTradedPrice := leUint (((1 :: List.replicate 50 0).drop 43).take 8) } :=
  ltp_frame_fields (1 :: List.replicate 50 0) (by simp) (by simp)

/-- Claim C8: every payload meeting the minimum layout length of its mode
parses to a record (51 bytes for BestPrice, 123 for Quote, 379 for
Snapshot), while a payload one byte short of the BestPrice layout makes
the BestPrice parser fault (out-of-bounds slice) instead of returning a
typed error. -/
theorem parser_bounds_and_truncation :
    (∀ msg : List Nat, 51 ≤ msg.length → (ParseLTP msg).isSome) ∧
    (∀ msg : List Nat, 123 ≤ msg.length → (ParseQuote msg).isSome) ∧
    (∀ msg : List Nat, 379 ≤ msg.length → (ParseSnapquote msg).isSome) ∧
    (∀ msg : List Nat, msg.length = 50 → ParseLTP msg = none) := by
  refine ⟨?_, ?_, ?_, ?_⟩
  · intro msg h
    rw [ParseLTP_eq msg h]
    rfl
  · intro msg h
    rw [ParseQuote_eq msg h]
    rfl
  · intro msg h
    rw [ParseSnapquote_eq msg h]
    rfl
  · intro msg h
    have r27 := readU64_eq msg (27) (by omega)
    have r35 := readU64_eq msg (35) (by omega)
    have r43 := readU64_eq_none msg (43) (by omega)
    simp [ParseLTP, r27, r35, r43]

/-- Witness for C8 at the three minimum lengths and at the truncated
50-byte buffer. -/
theorem parser_bounds_and_truncation_witness :
    (ParseLTP (List.replicate 51 0)).isSome ∧
    (ParseQuote (List.replicate 123 0)).isSome ∧
    (ParseSnapquote (List.replicate 379 0)).isSome ∧
    ParseLTP (List.replicate 50 0) = none :=
  ⟨parser_bounds_and_truncation.1 _ (by simp),
   parser_bounds_and_truncation.2.1 _ (by simp),
   parser_bounds_and_truncation.2.2.1 _ (by simp),
   parser_bounds_and_truncation.2.2.2 _ (by simp)⟩

end SmartApi
